import Mathlib

/-!
Verification of the scenario store, rule engine, mode flags and
capture import/export of the mitmproxy web app
(`src/mitmproxy/tools/web/app.py`), via a shallow embedding.

Python insertion-ordered dicts are modelled as association lists with
unique keys; machine state mutated by the Tornado handlers is threaded
explicitly.  Handlers return the state as it stands when an exception
is raised (Python mutations before a raise persist), paired with an
optional error.
-/

namespace MitmWeb

/-- Errors raised by handler operations (Python exception kinds,
collapsed to the taxonomy of the operations we model). -/
inductive VError where
  | notFound
  | keyError
  | valueError
  | typeError
  | attrError
  | apiError
  | indexOutOfRange
  | invalidCaptureFormat
deriving DecidableEq, Repr

/-! ### Association-list model of Python dicts (insertion ordered) -/

/-- `d[k]` lookup: first binding of `k`. -/
def dget {α : Type} (d : List (String × α)) (k : String) : Option α :=
  match d with
  | [] => none
  | (k', v) :: t => if k' = k then some v else dget t k

/-- `d[k] = v`: replace the first binding of `k` in place, else append
(Python dict assignment keeps the key's insertion position). -/
def dset {α : Type} (d : List (String × α)) (k : String) (v : α) :
    List (String × α) :=
  match d with
  | [] => [(k, v)]
  | (k', v') :: t => if k' = k then (k, v) :: t else (k', v') :: dset t k v

/-- `del d[k]` / `d.pop(k)`: drop the first binding of `k`. -/
def ddel {α : Type} (d : List (String × α)) (k : String) :
    List (String × α) :=
  match d with
  | [] => []
  | (k', v') :: t => if k' = k then t else (k', v') :: ddel t k

/-- `list(d.keys())`. -/
def dkeys {α : Type} (d : List (String × α)) : List String :=
  d.map Prod.fst

/-- `keys.index(a)`: position of the first occurrence, `none` models the
`ValueError` Python raises when absent. -/
def idxOf (l : List String) (a : String) : Option Nat :=
  match l with
  | [] => none
  | b :: t => if b = a then some 0 else (idxOf t a).map (· + 1)

/-! ### Flows (external entities, referenced by the store) -/

/-- HTTP request record of a flow, with the fields the handlers read or
write.  Timestamps (floats) are omitted; `text` is the decoded body and
`raw_content` the raw body bytes (their encoding relationship lives in
the external HTTP library and is not modelled). -/
structure Req where
  method : String
  scheme : String
  host : String
  port : Int
  path : String
  http_version : String
  headers : List (String × String)
  text : String
  raw_content : Option (List Nat)
  is_replay : Bool
  pretty_host : String
deriving DecidableEq, Repr

/-- HTTP response record of a flow.  `msg` is the reason phrase
(`response.msg` is the attribute the update handler writes,
`response.reason` the one the projection reads; they alias the same
datum). -/
structure Resp where
  msg : String
  http_version : String
  status_code : Int
  headers : List (String × String)
  text : String
  raw_content : Option (List Nat)
  is_replay : Bool
deriving DecidableEq, Repr

/-- A captured HTTP flow (connection metadata such as TLS state is
stripped by the projection and not modelled; all flows here are HTTP
flows, so the `request`/`response` attributes exist, possibly `None`). -/
structure Flow where
  id : String
  intercepted : Bool
  marked : Bool
  modified : Bool
  killable : Bool
  request : Option Req
  response : Option Resp
  error : Option String
deriving DecidableEq, Repr

/-! ### Rules and scenarios -/

/-- A rule payload: an opaque ordered field map. -/
abbrev Fields := List (String × String)

/-- Modelled from the spec: `RuleSet` (class of `mitmproxy.addons.view`,
whose source is not in the slice) — an ordered collection of rules for
one flow, grouped by label; each label maps to a dense 0-based list of
field maps. -/
structure RuleSet where
  rules : List (String × List Fields)
deriving DecidableEq, Repr

/-- Modelled from the spec: `RuleSet.toDict`, the projection to a plain
field-mapping form (an ordered sequence of field mappings per label). -/
def RuleSet.toDict (rs : RuleSet) : List (String × List Fields) :=
  rs.rules

/-- The ordered rule list registered under one label (empty when the
label is absent). -/
def RuleSet.labelRules (rs : RuleSet) (label : String) : List Fields :=
  (dget rs.rules label).getD []

/-- Swap the elements at positions `i` and `j` of a list (both in
range). -/
def swapAt {α : Type} (l : List α) (i j : Nat) : List α :=
  match l.get? i, l.get? j with
  | some a, some b => (l.set i b).set j a
  | _, _ => l

/-- Modelled from the spec: `RuleSet.switchRules(label, i, j)` swaps two
rule positions; out-of-range indices fail with `IndexOutOfRangeError`
(boundary moves are rejected, never clamped or wrapped). -/
def RuleSet.switchRules (rs : RuleSet) (label : String) (i j : Int) :
    Except VError RuleSet :=
  let l := rs.labelRules label
  if 0 ≤ i ∧ 0 ≤ j ∧ i < l.length ∧ j < l.length then
    .ok ⟨dset rs.rules label (swapAt l i.toNat j.toNat)⟩
  else
    .error .indexOutOfRange

/-- Modelled from the spec: `RuleSet.addRule(label, fields)` appends at
the end of that label's list (creating the label on first use). -/
def RuleSet.addRule (rs : RuleSet) (label : String) (fields : Fields) :
    RuleSet :=
  ⟨dset rs.rules label (rs.labelRules label ++ [fields])⟩

/-- Modelled from the spec: `RuleSet.setRule(label, fields, index)`
replaces the rule at `index`; at `index = length` it appends; beyond
that it fails with `IndexOutOfRangeError`. -/
def RuleSet.setRule (rs : RuleSet) (label : String) (fields : Fields)
    (index : Int) : Except VError RuleSet :=
  let l := rs.labelRules label
  if index = (l.length : Int) then
    .ok ⟨dset rs.rules label (l ++ [fields])⟩
  else if 0 ≤ index ∧ index < l.length then
    .ok ⟨dset rs.rules label (l.set index.toNat fields)⟩
  else
    .error .indexOutOfRange

/-- Modelled from the spec: `RuleSet.deleteRule(label, index)` removes
the rule and re-compacts indices (later rules shift down); the label's
entry is dropped entirely when its list becomes empty; a missing rule
index is a `NotFoundError`. -/
def RuleSet.deleteRule (rs : RuleSet) (label : String) (index : Int) :
    Except VError RuleSet :=
  let l := rs.labelRules label
  if 0 ≤ index ∧ index < l.length then
    let l' := l.eraseIdx index.toNat
    if l'.isEmpty then
      .ok ⟨ddel rs.rules label⟩
    else
      .ok ⟨dset rs.rules label l'⟩
  else
    .error .notFound

/-- A scenario's stored value: the Python pair `(flows, rulesets)` —
a list of captured flow references and a dict from flow id to its
`RuleSet` (`scenarios[name][0]` and `scenarios[name][1]`). -/
structure Scen where
  flows : List Flow
  rules : List (String × RuleSet)
deriving DecidableEq, Repr

/-- The process-wide view state: the scenario dict, the current
scenario name (`""` = none), the two mode flags, the live FlowStore
contents, and the matcher registry. -/
structure View where
  scenarios : List (String × Scen)
  current : String
  learning : Bool
  mock : Bool
  store : List Flow
  matchers : List (String × String)
deriving DecidableEq, Repr

/-- Modelled from the spec: `view.switchLearning()` flips the
`learning` flag. -/
def switchLearning (s : View) : View :=
  { s with learning := !s.learning }

/-- Modelled from the spec: `view.switchMock()` flips the `mock`
flag. -/
def switchMock (s : View) : View :=
  { s with mock := !s.mock }

/-- Modelled from the spec: `view.setScen(name)` sets
`current = name`, failing with `NotFoundError` when `name` is non-empty
and not a scenario key. -/
def setScen (s : View) (name : String) : View × Option VError :=
  if name ≠ "" ∧ (dget s.scenarios name).isNone then
    (s, some .notFound)
  else
    ({ s with current := name }, none)

/-- Modelled from the spec: `view.addScen(name)` inserts an empty
scenario `(∅, {})` under `name` (its caller checks for duplicates
first). -/
def addScen (s : View) (name : String) : View :=
  { s with scenarios := dset s.scenarios name ⟨[], []⟩ }

/-- `view.remove(fs)`: evict the given flows from the live FlowStore
(removal by flow identity, modelled as removal by id). -/
def storeRemove (st : List Flow) (fs : List Flow) : List Flow :=
  st.filter (fun f => !(fs.any (fun g => g.id = f.id)))

/-! ### Scenario handlers (`Scenario`, `DeleteScenario`, `CopyScenario`) -/

/-- `Scenario.post(scenario)`: create the scenario when the name is new,
then make it current. -/
def scenarioPost (s : View) (scenario : String) : View × Option VError :=
  let s1 := if (dget s.scenarios scenario).isNone then addScen s scenario else s
  setScen s1 scenario

/-- Tail of `DeleteScenario.post` after the reselection: evict the
scenario's flows from the live store (`view.remove`), then pop the
scenario from the dict (`KeyError` when absent). -/
def deleteScenarioFinish (s1 : View) (scenario : String) : View × Option VError :=
  match dget s1.scenarios scenario with
  | none => (s1, some .keyError)
  | some sc =>
    ({ s1 with store := storeRemove s1.store sc.flows,
               scenarios := ddel s1.scenarios scenario }, none)

/-- `DeleteScenario.post(scenario)`: reselect a neighbour as current
(empty when it was the only scenario, else the predecessor in insertion
order, else — when first — the successor), evict the scenario's flows
from the live store, and pop the scenario.  A missing name raises
(`keys.index` → `ValueError`) before any mutation. -/
def deleteScenarioPost (s : View) (scenario : String) : View × Option VError :=
  match idxOf (dkeys s.scenarios) scenario with
  | none => (s, some .valueError)
  | some index =>
    match
      if (dkeys s.scenarios).length = 1 then
        setScen s ""
      else if index ≠ 0 then
        setScen s ((dkeys s.scenarios).getD (index - 1) "")
      else
        setScen s ((dkeys s.scenarios).getD (index + 1) "")
    with
    | (s1, some e) => (s1, some e)
    | (s1, none) => deleteScenarioFinish s1 scenario

/-- `CopyScenario.post(scenario)`: re-bind the *current* scenario's
value under the new name, delete the current entry, and make the new
name current (a move/rename, not a duplicate).  A missing current
scenario raises `KeyError` before any mutation. -/
def copyScenarioPost (s : View) (scenario : String) : View × Option VError :=
  match dget s.scenarios s.current with
  | none => (s, some .keyError)
  | some v =>
    let s1 := { s with scenarios := dset s.scenarios scenario v }
    let s2 := { s1 with scenarios := ddel s1.scenarios s1.current }
    setScen s2 scenario

/-! ### Rule handlers (`RuleHandler.put`, `RuleUp`, `RuleDown`,
`RuleDelete`) -/

/-- Shared plumbing of the rule handlers: fetch
`scenarios[current][1][flow_id]`, apply `op` to that `RuleSet`, and on
success store the updated `RuleSet` back in place.  Missing keys raise
`KeyError`; an `op` failure propagates with no mutation. -/
def withRuleSet (s : View) (flow_id : String)
    (op : RuleSet → Except VError RuleSet) : View × Option VError :=
  match dget s.scenarios s.current with
  | none => (s, some .keyError)
  | some sc =>
    match dget sc.rules flow_id with
    | none => (s, some .keyError)
    | some rs =>
      match op rs with
      | .error e => (s, some e)
      | .ok rs' =>
        let sc' : Scen := { sc with rules := dset sc.rules flow_id rs' }
        ({ s with scenarios := dset s.scenarios s.current sc' }, none)

/-- `RuleHandler.put(flow_id)`: `Index = -1` appends via `addRule`,
any other index goes through `setRule`. -/
def rulePutPost (s : View) (flow_id label : String) (fields : Fields)
    (index : Int) : View × Option VError :=
  withRuleSet s flow_id (fun rs =>
    if index = -1 then .ok (rs.addRule label fields)
    else rs.setRule label fields index)

/-- `RuleUp.post(flow_id, label, index)`:
`switchRules(label, index, index - 1)`. -/
def ruleUpPost (s : View) (flow_id label : String) (index : Nat) :
    View × Option VError :=
  withRuleSet s flow_id (fun rs =>
    rs.switchRules label (index : Int) ((index : Int) - 1))

/-- `RuleDown.post(flow_id, label, index)`:
`switchRules(label, index, index + 1)`. -/
def ruleDownPost (s : View) (flow_id label : String) (index : Nat) :
    View × Option VError :=
  withRuleSet s flow_id (fun rs =>
    rs.switchRules label (index : Int) ((index : Int) + 1))

/-- `RuleDelete.post(flow_id, label, index)`: `deleteRule(label, index)`. -/
def ruleDeletePost (s : View) (flow_id label : String) (index : Nat) :
    View × Option VError :=
  withRuleSet s flow_id (fun rs => rs.deleteRule label (index : Int))

/-! ### Flow projection (`flow_to_json`) -/

/-- Stand-in for `hashlib.sha256(...).hexdigest()` (an external
library): some total rendering of the bytes; no theorem depends on its
shape, only on when it is applied. -/
def sha256hex (b : List Nat) : String :=
  "h" ++ toString b.length ++ ":" ++ String.intercalate "." (b.map toString)

/-- Python truthiness of `raw_content` (`bytes | None`): `None` and
`b""` are falsy. -/
def pyTruthyBytes : Option (List Nat) → Bool
  | none => false
  | some c => !c.isEmpty

/-- The `(length, content-hash)` pair `flow_to_json` computes from a
raw body: `(None, None)` unless the body is truthy. -/
def bodyMeta (raw : Option (List Nat)) : Option Nat × Option String :=
  if pyTruthyBytes raw then
    ((raw.getD []).length, some (sha256hex (raw.getD [])))
  else
    (none, none)

/-- Projection of a request produced by `flow_to_json` (timestamps,
which are floats, omitted). -/
structure ReqJson where
  method : String
  scheme : String
  host : String
  port : Int
  path : String
  http_version : String
  headers : List (String × String)
  contentLength : Option Nat
  contentHash : Option String
  is_replay : Bool
  pretty_host : String
deriving DecidableEq, Repr

/-- Projection of a response produced by `flow_to_json`. -/
structure RespJson where
  http_version : String
  status_code : Int
  reason : String
  headers : List (String × String)
  contentLength : Option Nat
  contentHash : Option String
  is_replay : Bool
deriving DecidableEq, Repr

/-- The transport-safe flow mapping built by `flow_to_json`
(connection metadata, whose secrets the code strips, is external and
not modelled). -/
structure FlowJson where
  id : String
  intercepted : Bool
  modified : Bool
  marked : Bool
  error : Option String
  request : Option ReqJson
  response : Option RespJson
deriving DecidableEq, Repr

/-- Request part of `flow_to_json`. -/
def reqToJson (r : Req) : ReqJson :=
  let m := bodyMeta r.raw_content
  { method := r.method
    scheme := r.scheme
    host := r.host
    port := r.port
    path := r.path
    http_version := r.http_version
    headers := r.headers
    contentLength := m.1
    contentHash := m.2
    is_replay := r.is_replay
    pretty_host := r.pretty_host }

/-- Response part of `flow_to_json`. -/
def respToJson (r : Resp) : RespJson :=
  let m := bodyMeta r.raw_content
  { http_version := r.http_version
    status_code := r.status_code
    reason := r.msg
    headers := r.headers
    contentLength := m.1
    contentHash := m.2
    is_replay := r.is_replay }

/-- `flow_to_json(flow)`: the read-only projection sent to the UI. -/
def flow_to_json (f : Flow) : FlowJson :=
  { id := f.id
    intercepted := f.intercepted
    modified := f.modified
    marked := f.marked
    error := f.error
    request := f.request.map reqToJson
    response := f.response.map respToJson }

/-! ### Flow listing (`Flows.get`) -/

/-- One element of the list `Flows.get` writes: either a
`(flow_to_json dict, rule dict)` pair, or the bare current-scenario
name appended at the end. -/
inductive ListingItem where
  | entry : FlowJson → Option String → List (String × List Fields) → ListingItem
  | scenName : String → ListingItem
deriving DecidableEq, Repr

/-- The default rule dict used when a flow belongs to no scenario:
`{'Headers': [], 'Content': [], 'URI': []}`. -/
def defaultRuleDict : List (String × List Fields) :=
  [("Headers", []), ("Content", []), ("URI", [])]

/-- `dic["scenario"]` after the tagging loop: the *last* scenario whose
flow list contains `f` (later assignments overwrite earlier ones). -/
def tagOf (scens : List (String × Scen)) (f : Flow) : Option String :=
  scens.foldl (fun acc p => if f ∈ p.2.flows then some p.1 else acc) none

/-- One iteration of the `Flows.get` loop body: project the flow, tag
it with its scenario, and fetch that scenario's rule dict for the flow
(`scenarios[tag][1][f.id].toDict()`, a `KeyError` when the flow has no
`RuleSet` entry). -/
def listItem (scens : List (String × Scen)) (f : Flow) :
    Except VError ListingItem :=
  match tagOf scens f with
  | none => .ok (.entry (flow_to_json f) none defaultRuleDict)
  | some t =>
    match dget scens t with
    | none => .error .keyError
    | some sc =>
      match dget sc.rules f.id with
      | none => .error .keyError
      | some rs => .ok (.entry (flow_to_json f) (some t) rs.toDict)

/-- The listing `Flows.get` computes before touching the mode flags:
one item per store flow, plus the current scenario name when one is
set. -/
def flowsListing (s : View) : Except VError (List ListingItem) := do
  let items ← s.store.mapM (listItem s.scenarios)
  if s.current ≠ "" then
    pure (items ++ [.scenName s.current])
  else
    pure items

/-- `Flows.get`: compute the listing, then — only when the listing
succeeded — turn off `mock` and `learning` if they are on, and return
the listing.  An exception in the loop skips the flag switches. -/
def flowsGet (s : View) : Except VError (List ListingItem) × View :=
  match flowsListing s with
  | .error e => (.error e, s)
  | .ok li =>
    let s1 := if s.mock then switchMock s else s
    let s2 := if s1.learning then switchLearning s1 else s1
    (.ok li, s2)

/-! ### Capture export (`DumpFlows.get`) -/

/-- Textual form of one field map inside `str(RuleSet)`. -/
def fieldsStr (fs : Fields) : String :=
  String.intercalate "," (fs.map (fun q => q.1 ++ ":" ++ q.2))

/-- Modelled: Python `str(m)` of a `RuleSet` object (the class is
external to the slice); some total rendering derived from the rule
mapping — no theorem depends on its exact layout, only on which object
it is applied to. -/
def ruleSetStr (rs : RuleSet) : String :=
  "<RuleSet " ++
    String.intercalate ";"
      (rs.rules.map (fun p =>
        p.1 ++ "=" ++ String.intercalate "|" (p.2.map fieldsStr))) ++
  ">"

/-- The header line as a function of its entries:
`{` + `'id': value, ` per entry + `} \n`, exactly as the handler
concatenates it. -/
def mkHeaderLine (entries : List (String × String)) : String :=
  "\x7b" ++
    String.join (entries.map (fun p => "'" ++ p.1 ++ "'" ++ ": " ++ p.2 ++ ", ")) ++
  "\x7d \n"

/-- The header entries the export actually writes: one per binding of
the current scenario's *RuleSet mapping* (`scenarios[current][1]`),
pairing the flow id with `str` of its `RuleSet`. -/
def dumpHeaderEntries (s : View) : List (String × String) :=
  ((dget s.scenarios s.current).getD ⟨[], []⟩).rules.map
    (fun p => (p.1, ruleSetStr p.2))

/-- The header mapping as the spec words it: flow id to that flow's
associated *Matcher*, for every matcher registered against the
scenario's flows. -/
def dumpHeaderSpec (s : View) : List (String × String) :=
  let scen := (dget s.scenarios s.current).getD ⟨[], []⟩
  s.matchers.filter (fun m => (scen.flows.map Flow.id).contains m.1)

/-- `DumpFlows.get`: write `{`, then `'id': str(m), ` per entry of the
current scenario's RuleSet mapping, then `} \n`, then one `FlowWriter`
record per flow of the scenario's flow list, in order.  Returns the
header line and the record sequence; `none` models the `KeyError` when
the current scenario is absent. -/
def dumpFlowsGet (s : View) : Option (String × List Flow) :=
  match dget s.scenarios s.current with
  | none => none
  | some scen =>
    let acc := "\x7b"
    let acc := scen.rules.foldl
      (fun a p => a ++ ("'" ++ p.1 ++ "'" ++ ": " ++ ruleSetStr p.2 ++ ", ")) acc
    let acc := acc ++ "\x7d \n"
    some (acc, scen.flows)

/-! ### Capture import (`DumpFlows.post`) -/

/-- Outcome of an import: the view state when the handler returns or
raises, the flow records handed to `asyncio.call_soon` for deferred
ingestion (in decode order), and the error, if any. -/
structure ImportRes where
  state : View
  enqueued : List Flow
  err : Option VError
deriving DecidableEq, Repr

/-- Tail of the import after the destructive clearing: reset the
current scenario to `([], {})`, then parse the header: a failed parse
(`header = none`) raises `InvalidCaptureFormatError` there, before any
matcher registration or flow ingestion; a parsed mapping registers
every matcher and enqueues each decoded flow record, in order, for
deferred ingestion. -/
def dumpFlowsPostRest (s2 : View) (header : Option (List (String × String)))
    (records : List Flow) : ImportRes :=
  let s3 := { s2 with scenarios := dset s2.scenarios s2.current ⟨[], []⟩ }
  match header with
  | none => ⟨s3, [], some .invalidCaptureFormat⟩
  | some ms => ⟨{ s3 with matchers := s3.matchers ++ ms }, records, none⟩

/-- Middle of the import: when a current scenario is set, evict its
flows from the live store (`KeyError` when the name is dangling), then
continue with the destructive replace. -/
def dumpFlowsPostClear (s1 : View) (header : Option (List (String × String)))
    (records : List Flow) : ImportRes :=
  if s1.current ≠ "" then
    match dget s1.scenarios s1.current with
    | none => ⟨s1, [], some .keyError⟩
    | some scen =>
      dumpFlowsPostRest ({ s1 with store := storeRemove s1.store scen.flows })
        header records
  else
    dumpFlowsPostRest s1 header records

/-- `DumpFlows.post`: turn `learning` on if it is off (the first
statement, before any byte of the upload is read), then clear and
replace the current scenario and stream in the parsed capture. -/
def dumpFlowsPost (s : View) (header : Option (List (String × String)))
    (records : List Flow) : ImportRes :=
  dumpFlowsPostClear (if !s.learning then switchLearning s else s) header records

/-! ### Flow update (`FlowHandler.put`) -/

/-- A JSON value of a flow-update request body. -/
inductive JVal where
  | str : String → JVal
  | num : Int → JVal
  | list : List JVal → JVal
  | null : JVal

/-- One-level rendering of a JSON value, used for list elements. -/
def jstrAtom : JVal → String
  | .str s => s
  | .num n => toString n
  | .null => "None"
  | .list _ => "[...]"

/-- Python `str(v)` of a JSON value (total, loose rendering; nested
lists are flattened — no handler inspects this string, it is only
stored into the updated field). -/
def jstr : JVal → String
  | .str s => s
  | .num n => toString n
  | .null => "None"
  | .list l => "[" ++ String.intercalate ", " (l.map jstrAtom) ++ "]"

/-- Accumulate decimal digits; any non-digit character fails. -/
def digitsToNat (acc : Nat) : List Char → Option Nat
  | [] => some acc
  | c :: t =>
    if c.isDigit then digitsToNat (acc * 10 + (c.toNat - 48)) t else none

/-- Parse a decimal integer, mirroring Python `int(s)` on the values
the handlers receive: an optional leading minus followed by at least
one digit (whitespace tolerance and other `int()` niceties are not
modelled — no claim depends on them). -/
def strToInt (s : String) : Option Int :=
  match s.data with
  | [] => none
  | '-' :: t =>
    if t.isEmpty then none else (digitsToNat 0 t).map (fun n => -(n : Int))
  | l => (digitsToNat 0 l).map (fun n => (n : Int))

/-- Python `int(v)`: an integer as is, a string parsed as an integer,
anything else a `TypeError`/`ValueError` (modelled as `none`). -/
def jint : JVal → Option Int
  | .num n => some n
  | .str s => strToInt s
  | _ => none

/-- One element of a `headers` update: `headers.add(*header)` needs a
pair of strings, anything else raises. -/
def headerPair : JVal → Option (String × String)
  | .list [.str a, .str b] => some (a, b)
  | _ => none

/-- Add the decoded header pairs one by one after the `clear()`;
a malformed element raises with the pairs before it already added. -/
def addHeaders (hs0 : List (String × String)) (v : List JVal) :
    List (String × String) × Option VError :=
  match v with
  | [] => (hs0, none)
  | h :: t =>
    match headerPair h with
    | some p => addHeaders (hs0 ++ [p]) t
    | none => (hs0, some .typeError)

/-- The string-valued request fields settable via plain `setattr`. -/
def reqStrKeys : List String :=
  ["method", "scheme", "host", "path", "http_version"]

/-- Dispatch of one `request` field update (the `k`/`v` loop body of
`FlowHandler.put`): known string fields take `str(v)`; `port` takes
`int(v)` (a bad value raises `ValueError`); `headers` is cleared then
re-added pair by pair; `content` assigns the text body; any other key
raises `APIError`. -/
def setReqField (r : Req) (k : String) (v : JVal) : Req × Option VError :=
  if k = "method" then ({ r with method := jstr v }, none)
  else if k = "scheme" then ({ r with scheme := jstr v }, none)
  else if k = "host" then ({ r with host := jstr v }, none)
  else if k = "path" then ({ r with path := jstr v }, none)
  else if k = "http_version" then ({ r with http_version := jstr v }, none)
  else if k = "port" then
    match jint v with
    | some n => ({ r with port := n }, none)
    | none => (r, some .valueError)
  else if k = "headers" then
    match v with
    | .list hs =>
      let (hs', e) := addHeaders [] hs
      ({ r with headers := hs' }, e)
    | _ => ({ r with headers := [] }, some .typeError)
  else if k = "content" then
    match v with
    | .str t => ({ r with text := t }, none)
    | _ => (r, some .typeError)
  else (r, some .apiError)

/-- Dispatch of one `response` field update: `msg` and `http_version`
take `str(v)`; `code` takes `int(v)`; `headers` and `content` as for
requests; unknown keys raise `APIError`. -/
def setRespField (r : Resp) (k : String) (v : JVal) : Resp × Option VError :=
  if k = "msg" then ({ r with msg := jstr v }, none)
  else if k = "http_version" then ({ r with http_version := jstr v }, none)
  else if k = "code" then
    match jint v with
    | some n => ({ r with status_code := n }, none)
    | none => (r, some .valueError)
  else if k = "headers" then
    match v with
    | .list hs =>
      let (hs', e) := addHeaders [] hs
      ({ r with headers := hs' }, e)
    | _ => ({ r with headers := [] }, some .typeError)
  else if k = "content" then
    match v with
    | .str t => ({ r with text := t }, none)
    | _ => (r, some .typeError)
  else (r, some .apiError)

/-- Apply the `request` fields in order, stopping at the first raise
(updates before it persist). -/
def putReqFields (r : Req) (fs : List (String × JVal)) : Req × Option VError :=
  match fs with
  | [] => (r, none)
  | (k, v) :: t =>
    match setReqField r k v with
    | (r', none) => putReqFields r' t
    | (r', some e) => (r', some e)

/-- Apply the `response` fields in order, stopping at the first raise. -/
def putRespFields (r : Resp) (fs : List (String × JVal)) : Resp × Option VError :=
  match fs with
  | [] => (r, none)
  | (k, v) :: t =>
    match setRespField r k v with
    | (r', none) => putRespFields r' t
    | (r', some e) => (r', some e)

/-- The error the first field update raises when the message object is
`None`: an unknown key still raises `APIError` (its branch never
touches the object); `port`/`code` evaluate `int(v)` first, so a bad
value raises `ValueError`; every other branch hits the missing
attribute. -/
def fieldOnNone (known : List String) (intKey : String) (k : String)
    (v : JVal) : VError :=
  if k ∈ known ∨ k = "headers" ∨ k = "content" then .attrError
  else if k = intKey then
    match jint v with
    | some _ => .attrError
    | none => .valueError
  else .apiError

/-- One section (`"request"` or `"response"`) of the update body.  An
unknown section name raises `APIError`; a section whose message is
`None` raises on its first field (nothing to mutate). -/
def applySection (f : Flow) (a : String) (b : List (String × JVal)) :
    Flow × Option VError :=
  if a = "request" then
    match f.request with
    | some r =>
      let (r', e) := putReqFields r b
      ({ f with request := some r' }, e)
    | none =>
      match b with
      | [] => (f, none)
      | (k, v) :: _ => (f, some (fieldOnNone reqStrKeys "port" k v))
  else if a = "response" then
    match f.response with
    | some r =>
      let (r', e) := putRespFields r b
      ({ f with response := some r' }, e)
    | none =>
      match b with
      | [] => (f, none)
      | (k, v) :: _ => (f, some (fieldOnNone ["msg", "http_version"] "code" k v))
  else (f, some .apiError)

/-- The section loop of `FlowHandler.put`, stopping at the first raise
(sections before it persist). -/
def flowPutLoop (f : Flow) (upds : List (String × List (String × JVal))) :
    Flow × Option VError :=
  match upds with
  | [] => (f, none)
  | (a, b) :: t =>
    match applySection f a b with
    | (f', none) => flowPutLoop f' t
    | (f', some e) => (f', some e)

/-- `FlowHandler.put`: `flow.backup()`, apply the update sections in
order; an `APIError` is caught, the flow reverted to the backup, and
the error re-raised; any other exception propagates uncaught with the
mutations made so far left in place; on success the view is notified
of the (mutated) flow. -/
def flowPut (f : Flow) (upds : List (String × List (String × JVal))) :
    Flow × Option VError :=
  match flowPutLoop f upds with
  | (f', none) => (f', none)
  | (f', some e) => if e = .apiError then (f, some .apiError) else (f', some e)

/-- The ScenarioStore invariant: `current` is either empty or a key
present in the scenario mapping. -/
def Inv (s : View) : Prop :=
  s.current = "" ∨ (dget s.scenarios s.current).isSome = true

instance (s : View) : Decidable (Inv s) := by
  unfold Inv; infer_instance

/-! ## Concrete sample states for witnesses and counterexamples -/

/-- A sample request (no body). -/
def rq0 : Req :=
  { method := "GET", scheme := "http", host := "h", port := 80, path := "/",
    http_version := "HTTP/1.1", headers := [("Accept", "*/*")], text := "",
    raw_content := none, is_replay := false, pretty_host := "h" }

/-- A sample response with an empty (zero-length) body. -/
def rp0 : Resp :=
  { msg := "OK", http_version := "HTTP/1.1", status_code := 200,
    headers := [], text := "", raw_content := some [], is_replay := false }

/-- A sample flow. -/
def fl0 : Flow :=
  { id := "f1", intercepted := false, marked := false, modified := false,
    killable := true, request := some rq0, response := some rp0, error := none }

/-- A sample rule set with one rule under one label. -/
def rs0 : RuleSet := ⟨[("Match", [[("x", "1")]])]⟩

/-- A sample scenario holding `fl0` with rule set `rs0`. -/
def scen0 : Scen := ⟨[fl0], [("f1", rs0)]⟩

/-- A sample view: one scenario `"A"` (the current one), no registered
matchers, flags off, `fl0` in the live store. -/
def v0 : View :=
  { scenarios := [("A", scen0)], current := "A", learning := false,
    mock := false, store := [fl0], matchers := [] }

/-- `v0` with both mode flags on (for the flow-listing witness). -/
def vFlags : View := { v0 with mock := true, learning := true }

/-- The listing `Flows.get` produces on `vFlags`. -/
def lw : List ListingItem :=
  [.entry (flow_to_json fl0) (some "A") rs0.toDict, .scenName "A"]

/-- A flow-update body with a valid first field and an invalid `port`
value (not parseable as an integer). -/
def updBad : List (String × List (String × JVal)) :=
  [("request", [("method", .str "POST"), ("port", .str "x")])]

/-- A flow-update body with an unknown section name. -/
def updUnknown : List (String × List (String × JVal)) :=
  [("bogus", [])]

/-- An empty scenario value `([], {})`. -/
def scenEmpty : Scen := ⟨[], []⟩

/-- Three scenarios `A, B, C` with `current = "B"` (the §8 deletion
test layout). -/
def v3 : View :=
  { scenarios := [("A", scenEmpty), ("B", scenEmpty), ("C", scenEmpty)],
    current := "B", learning := false, mock := false, store := [],
    matchers := [] }

/-! ## Dictionary and index lemmas -/

theorem dget_dset_self {α : Type} (d : List (String × α)) (k : String) (v : α) :
    dget (dset d k v) k = some v := by
  induction d with
  | nil => simp [dset, dget]
  | cons p t ih =>
    obtain ⟨pk, pv⟩ := p
    by_cases h : pk = k
    · subst h
      simp [dset, dget]
    · simp [dset, dget, h, ih]

theorem dget_dset_ne {α : Type} (d : List (String × α)) (k k' : String) (v : α)
    (h : k' ≠ k) : dget (dset d k v) k' = dget d k' := by
  induction d with
  | nil => simp [dset, dget, Ne.symm h]
  | cons p t ih =>
    obtain ⟨pk, pv⟩ := p
    by_cases hp : pk = k
    · subst hp
      simp [dset, dget, Ne.symm h]
    · simp [dset, dget, hp, ih]

theorem dget_ddel_ne {α : Type} (d : List (String × α)) (k k' : String)
    (h : k' ≠ k) : dget (ddel d k) k' = dget d k' := by
  induction d with
  | nil => simp [ddel, dget]
  | cons p t ih =>
    obtain ⟨pk, pv⟩ := p
    by_cases hp : pk = k
    · subst hp
      simp [ddel, dget, Ne.symm h]
    · simp [ddel, dget, hp, ih]

theorem mem_dkeys_iff_isSome {α : Type} (d : List (String × α)) (k : String) :
    k ∈ dkeys d ↔ (dget d k).isSome = true := by
  induction d with
  | nil => simp [dkeys, dget]
  | cons p t ih =>
    obtain ⟨pk, pv⟩ := p
    by_cases hp : pk = k
    · subst hp
      simp [dkeys, dget]
    · have hd : dget ((pk, pv) :: t) k = dget t k := by simp [dget, hp]
      have hk : (k ∈ dkeys ((pk, pv) :: t)) ↔ (k = pk ∨ k ∈ dkeys t) := by
        simp only [dkeys, List.map_cons, List.mem_cons]
      rw [hd, hk, ← ih]
      simp [Ne.symm hp]

theorem nodup_dget_ddel_self {α : Type} (d : List (String × α)) (k : String)
    (h : (dkeys d).Nodup) : dget (ddel d k) k = none := by
  induction d with
  | nil => simp [ddel, dget]
  | cons p t ih =>
    obtain ⟨pk, pv⟩ := p
    have hnd : pk ∉ dkeys t ∧ (dkeys t).Nodup := by
      simpa [dkeys] using h
    by_cases hp : pk = k
    · subst hp
      simp only [ddel, if_pos rfl]
      cases hget : dget t pk with
      | none => exact hget
      | some v =>
        exact absurd ((mem_dkeys_iff_isSome t pk).mpr (by simp [hget])) hnd.1
    · simp [ddel, dget, hp, ih hnd.2]

theorem dkeys_dset {α : Type} (d : List (String × α)) (k : String) (v : α) :
    dkeys (dset d k v) =
      if k ∈ dkeys d then dkeys d else dkeys d ++ [k] := by
  induction d with
  | nil => simp [dset, dkeys]
  | cons p t ih =>
    obtain ⟨pk, pv⟩ := p
    by_cases hp : pk = k
    · subst hp
      simp [dset, dkeys]
    · have h1 : dset ((pk, pv) :: t) k v = (pk, pv) :: dset t k v := by
        simp [dset, hp]
      have h2 : dkeys ((pk, pv) :: dset t k v) = pk :: dkeys (dset t k v) := rfl
      have h3 : dkeys ((pk, pv) :: t) = pk :: dkeys t := rfl
      have h4 : (k ∈ pk :: dkeys t) ↔ k ∈ dkeys t := by
        simp [List.mem_cons, Ne.symm hp]
      rw [h1, h2, h3, ih]
      by_cases hm : k ∈ dkeys t
      · rw [if_pos hm, if_pos (h4.mpr hm)]
      · rw [if_neg hm, if_neg (fun hc => hm (h4.mp hc))]
        simp

theorem dkeys_dset_nodup {α : Type} (d : List (String × α)) (k : String) (v : α)
    (h : (dkeys d).Nodup) : (dkeys (dset d k v)).Nodup := by
  rw [dkeys_dset]
  by_cases hm : k ∈ dkeys d
  · simpa [hm] using h
  · simp only [if_neg hm]
    simp [List.nodup_append, h, hm]

theorem getD_mem (l : List String) (i : Nat) (h : i < l.length) :
    l.getD i "" ∈ l := by
  induction l generalizing i with
  | nil => simp at h
  | cons a t ih =>
    cases i with
    | zero => simp
    | succ j =>
      have hj : j < t.length := by simpa using h
      simpa using Or.inr (ih j hj)

theorem nodup_getD_ne (l : List String) (i j : Nat)
    (hnd : l.Nodup) (hi : i < l.length) (hj : j < l.length) (hij : i ≠ j) :
    l.getD i "" ≠ l.getD j "" := by
  induction l generalizing i j with
  | nil => simp at hi
  | cons a t ih =>
    have hnd' : a ∉ t ∧ t.Nodup := by simpa using hnd
    cases i with
    | zero =>
      cases j with
      | zero => exact absurd rfl hij
      | succ j' =>
        have hj' : j' < t.length := by simpa using hj
        rw [List.getD_cons_zero, List.getD_cons_succ]
        intro hEq
        exact hnd'.1 (by rw [hEq]; exact getD_mem t j' hj')
    | succ i' =>
      cases j with
      | zero =>
        have hi' : i' < t.length := by simpa using hi
        rw [List.getD_cons_succ, List.getD_cons_zero]
        intro hEq
        exact hnd'.1 (by rw [← hEq]; exact getD_mem t i' hi')
      | succ j' =>
        have hi' : i' < t.length := by simpa using hi
        have hj' : j' < t.length := by simpa using hj
        rw [List.getD_cons_succ, List.getD_cons_succ]
        exact ih i' j' hnd'.2 hi' hj' (by omega)

theorem idxOf_lt_length (l : List String) (a : String) (i : Nat)
    (h : idxOf l a = some i) : i < l.length := by
  induction l generalizing i with
  | nil => simp [idxOf] at h
  | cons b t ih =>
    by_cases hb : b = a
    · simp only [idxOf, if_pos hb] at h
      injection h with h
      simp [← h]
    · simp only [idxOf, if_neg hb] at h
      cases hidx : idxOf t a with
      | none => rw [hidx] at h; simp at h
      | some j =>
        rw [hidx] at h
        simp only [Option.map_some'] at h
        injection h with h
        have := ih j hidx
        simp only [List.length_cons]
        omega

theorem idxOf_getD (l : List String) (a : String) (i : Nat)
    (h : idxOf l a = some i) : l.getD i "" = a := by
  induction l generalizing i with
  | nil => simp [idxOf] at h
  | cons b t ih =>
    by_cases hb : b = a
    · simp only [idxOf, if_pos hb] at h
      injection h with h
      rw [← h, List.getD_cons_zero]
      exact hb
    · simp only [idxOf, if_neg hb] at h
      cases hidx : idxOf t a with
      | none => rw [hidx] at h; simp at h
      | some j =>
        rw [hidx] at h
        simp only [Option.map_some'] at h
        injection h with h
        rw [← h, List.getD_cons_succ]
        exact ih j hidx

/-! ## Shared facts about the import handler -/

/-- The learning-flag switch at the top of the import touches nothing
but the flag. -/
theorem importS1_fields (s : View) :
    (if !s.learning then switchLearning s else s).scenarios = s.scenarios ∧
    (if !s.learning then switchLearning s else s).current = s.current ∧
    (if !s.learning then switchLearning s else s).store = s.store ∧
    (if !s.learning then switchLearning s else s).matchers = s.matchers ∧
    (if !s.learning then switchLearning s else s).learning = true := by
  cases hl : s.learning <;> simp [switchLearning, hl]

/-- The tail of the import never touches the learning flag. -/
theorem dumpFlowsPostRest_learning (s2 : View)
    (header : Option (List (String × String))) (records : List Flow) :
    (dumpFlowsPostRest s2 header records).state.learning = s2.learning := by
  cases header <;> rfl

/-- On a failed header parse the tail raises
`InvalidCaptureFormatError` with nothing enqueued and the matcher
registry and store untouched. -/
theorem dumpFlowsPostRest_none (s2 : View) (records : List Flow) :
    (dumpFlowsPostRest s2 none records).err = some .invalidCaptureFormat ∧
    (dumpFlowsPostRest s2 none records).enqueued = [] ∧
    (dumpFlowsPostRest s2 none records).state.matchers = s2.matchers ∧
    (dumpFlowsPostRest s2 none records).state.store = s2.store := by
  refine ⟨rfl, rfl, rfl, rfl⟩

/-- The failed-header outcome of the clearing step, for any state
satisfying the store invariant. -/
theorem dumpFlowsPostClear_none (s1 : View) (records : List Flow)
    (hInv1 : s1.current = "" ∨ (dget s1.scenarios s1.current).isSome = true) :
    (dumpFlowsPostClear s1 none records).err = some .invalidCaptureFormat ∧
    (dumpFlowsPostClear s1 none records).enqueued = [] ∧
    (dumpFlowsPostClear s1 none records).state.matchers = s1.matchers ∧
    ∀ f ∈ (dumpFlowsPostClear s1 none records).state.store, f ∈ s1.store := by
  unfold dumpFlowsPostClear
  by_cases hc : s1.current ≠ ""
  · rw [if_pos hc]
    rcases hInv1 with hemp | hsome
    · exact absurd hemp hc
    · rw [Option.isSome_iff_exists] at hsome
      obtain ⟨scen, hget⟩ := hsome
      rw [hget]
      refine ⟨rfl, rfl, rfl, ?_⟩
      intro f hf
      have hf' : f ∈ storeRemove s1.store scen.flows := hf
      exact (List.mem_filter.mp hf').1
  · rw [if_neg hc]
    refine ⟨rfl, rfl, rfl, ?_⟩
    intro f hf
    exact hf

/-! ## String-fold and setScen helpers -/

theorem strFoldlEq (l : List String) (acc : String) :
    l.foldl (fun r s => r ++ s) acc = acc ++ String.join l := by
  induction l generalizing acc with
  | nil => simp [String.join]
  | cons x t ih =>
    show t.foldl (fun r s => r ++ s) (acc ++ x) = acc ++ String.join (x :: t)
    rw [ih]
    have hj : String.join (x :: t) = x ++ String.join t := by
      show t.foldl (fun r s => r ++ s) ("" ++ x) = x ++ String.join t
      rw [ih, String.empty_append]
    rw [hj, String.append_assoc]

theorem strFoldAppend {α : Type} (g : α → String) (l : List α) (acc : String) :
    l.foldl (fun a p => a ++ g p) acc = acc ++ String.join (l.map g) := by
  induction l generalizing acc with
  | nil => simp [String.join]
  | cons x t ih =>
    show t.foldl (fun a p => a ++ g p) (acc ++ g x) = acc ++ String.join (g x :: t.map g)
    rw [ih]
    have hj : String.join (g x :: t.map g) = g x ++ String.join (t.map g) := by
      show (t.map g).foldl (fun r s => r ++ s) ("" ++ g x) = g x ++ String.join (t.map g)
      rw [strFoldlEq, String.empty_append]
    rw [hj, String.append_assoc]

/-- `setScen` with the empty name always succeeds. -/
theorem setScen_empty (s : View) : setScen s "" = ({ s with current := "" }, none) := by
  unfold setScen
  rw [if_neg]
  simp

/-- `setScen` with an existing scenario name succeeds. -/
theorem setScen_mem (s : View) (n : String)
    (h : (dget s.scenarios n).isSome = true) :
    setScen s n = ({ s with current := n }, none) := by
  unfold setScen
  rw [if_neg]
  rw [Option.isSome_iff_exists] at h
  obtain ⟨v, hv⟩ := h
  simp [hv]

/-! ## Scenario-handler characterisations -/

theorem deleteScenarioFinish_eq (s1 : View) (scenario : String) (sc : Scen)
    (h : dget s1.scenarios scenario = some sc) :
    deleteScenarioFinish s1 scenario =
      ({ s1 with store := storeRemove s1.store sc.flows,
                 scenarios := ddel s1.scenarios scenario }, none) := by
  unfold deleteScenarioFinish
  rw [h]

/-- Reduce `DeleteScenario.post` to its found-index branch. -/
theorem deleteScenarioPost_eq_branch (s : View) (name : String) (index : Nat)
    (hidx : idxOf (dkeys s.scenarios) name = some index) :
    deleteScenarioPost s name =
      (match
        if (dkeys s.scenarios).length = 1 then setScen s ""
        else if index ≠ 0 then setScen s ((dkeys s.scenarios).getD (index - 1) "")
        else setScen s ((dkeys s.scenarios).getD (index + 1) "")
      with
      | (s1, some e) => (s1, some e)
      | (s1, none) => deleteScenarioFinish s1 name) := by
  unfold deleteScenarioPost
  rw [hidx]

/-- Full characterisation of `DeleteScenario.post` on a present name:
it succeeds, pops exactly that name, and reselects the neighbour
described by the deletion policy (empty when alone, predecessor when
not first, successor when first), which afterwards names an existing
scenario. -/
theorem deleteScenarioPost_spec (s : View) (name : String) (index : Nat)
    (hnd : (dkeys s.scenarios).Nodup)
    (hidx : idxOf (dkeys s.scenarios) name = some index) :
    (deleteScenarioPost s name).2 = none ∧
    (deleteScenarioPost s name).1.scenarios = ddel s.scenarios name ∧
    ((dkeys s.scenarios).length = 1 →
      (deleteScenarioPost s name).1.scenarios = [] ∧
      (deleteScenarioPost s name).1.current = "") ∧
    ((dkeys s.scenarios).length ≠ 1 →
      (index ≠ 0 →
        (deleteScenarioPost s name).1.current =
          (dkeys s.scenarios).getD (index - 1) "") ∧
      (index = 0 →
        (deleteScenarioPost s name).1.current =
          (dkeys s.scenarios).getD (index + 1) "") ∧
      (dget (deleteScenarioPost s name).1.scenarios
        (deleteScenarioPost s name).1.current).isSome = true) := by
  have hlen : index < (dkeys s.scenarios).length := idxOf_lt_length _ _ _ hidx
  have hget : (dkeys s.scenarios).getD index "" = name := idxOf_getD _ _ _ hidx
  have hmem : name ∈ dkeys s.scenarios := by
    rw [← hget]
    exact getD_mem _ _ hlen
  have hsome : (dget s.scenarios name).isSome = true :=
    (mem_dkeys_iff_isSome _ _).mp hmem
  obtain ⟨sc, hsc⟩ := Option.isSome_iff_exists.mp hsome
  by_cases hl1 : (dkeys s.scenarios).length = 1
  · have hcall : deleteScenarioPost s name =
        ({ s with current := "", store := storeRemove s.store sc.flows,
                  scenarios := ddel s.scenarios name }, none) := by
      rw [deleteScenarioPost_eq_branch s name index hidx, if_pos hl1, setScen_empty]
      show deleteScenarioFinish ({ s with current := "" }) name = _
      rw [deleteScenarioFinish_eq ({ s with current := "" }) name sc hsc]
    have hempty : ddel s.scenarios name = [] := by
      have hlen1 : s.scenarios.length = 1 := by
        have h' := hl1
        rwa [dkeys, List.length_map] at h'
      obtain ⟨p, hp⟩ := List.length_eq_one.mp hlen1
      have hidx0 : index = 0 := by omega
      have hpk : p.1 = name := by
        have h' := hget
        rw [hidx0, hp] at h'
        simpa [dkeys] using h'
      rw [hp]
      simp [ddel, hpk]
    refine ⟨by rw [hcall], by rw [hcall], fun _ => ⟨?_, by rw [hcall]⟩,
      fun h => absurd hl1 h⟩
    rw [hcall]
    exact hempty
  · by_cases hi0 : index ≠ 0
    · have htlt : index - 1 < (dkeys s.scenarios).length := by omega
      have htne : (dkeys s.scenarios).getD (index - 1) "" ≠ name := by
        rw [← hget]
        exact nodup_getD_ne _ _ _ hnd htlt hlen (by omega)
      have htsome : (dget s.scenarios
          ((dkeys s.scenarios).getD (index - 1) "")).isSome = true :=
        (mem_dkeys_iff_isSome _ _).mp (getD_mem _ _ htlt)
      have hcall : deleteScenarioPost s name =
          ({ s with current := (dkeys s.scenarios).getD (index - 1) "",
                    store := storeRemove s.store sc.flows,
                    scenarios := ddel s.scenarios name }, none) := by
        rw [deleteScenarioPost_eq_branch s name index hidx, if_neg hl1, if_pos hi0,
          setScen_mem s ((dkeys s.scenarios).getD (index - 1) "") htsome]
        show deleteScenarioFinish
          ({ s with current := (dkeys s.scenarios).getD (index - 1) "" }) name = _
        rw [deleteScenarioFinish_eq
          ({ s with current := (dkeys s.scenarios).getD (index - 1) "" }) name sc hsc]
      refine ⟨by rw [hcall], by rw [hcall], fun h => absurd h hl1,
        fun _ => ⟨fun _ => by rw [hcall], fun h0 => absurd h0 hi0, ?_⟩⟩
      rw [hcall]
      show (dget (ddel s.scenarios name)
        ((dkeys s.scenarios).getD (index - 1) "")).isSome = true
      rw [dget_ddel_ne _ _ _ htne]
      exact htsome
    · have hidx0 : index = 0 := by omega
      have htlt : index + 1 < (dkeys s.scenarios).length := by omega
      have htne : (dkeys s.scenarios).getD (index + 1) "" ≠ name := by
        rw [← hget]
        exact nodup_getD_ne _ _ _ hnd htlt hlen (by omega)
      have htsome : (dget s.scenarios
          ((dkeys s.scenarios).getD (index + 1) "")).isSome = true :=
        (mem_dkeys_iff_isSome _ _).mp (getD_mem _ _ htlt)
      have hcall : deleteScenarioPost s name =
          ({ s with current := (dkeys s.scenarios).getD (index + 1) "",
                    store := storeRemove s.store sc.flows,
                    scenarios := ddel s.scenarios name }, none) := by
        rw [deleteScenarioPost_eq_branch s name index hidx, if_neg hl1, if_neg hi0,
          setScen_mem s ((dkeys s.scenarios).getD (index + 1) "") htsome]
        show deleteScenarioFinish
          ({ s with current := (dkeys s.scenarios).getD (index + 1) "" }) name = _
        rw [deleteScenarioFinish_eq
          ({ s with current := (dkeys s.scenarios).getD (index + 1) "" }) name sc hsc]
      refine ⟨by rw [hcall], by rw [hcall], fun h => absurd h hl1,
        fun _ => ⟨fun h0 => absurd h0 hi0, fun _ => by rw [hcall], ?_⟩⟩
      rw [hcall]
      show (dget (ddel s.scenarios name)
        ((dkeys s.scenarios).getD (index + 1) "")).isSome = true
      rw [dget_ddel_ne _ _ _ htne]
      exact htsome

/-- Characterisation of `CopyScenario.post` when the destination name
differs from the current (source) name. -/
theorem copyScenarioPost_eq (s : View) (dst : String) (v : Scen)
    (hsrc : dget s.scenarios s.current = some v) (hne : dst ≠ s.current) :
    copyScenarioPost s dst =
      ({ s with scenarios := ddel (dset s.scenarios dst v) s.current,
                current := dst }, none) := by
  have hd1' : (dget (ddel (dset s.scenarios dst v) s.current) dst).isSome = true := by
    rw [dget_ddel_ne _ _ _ hne, dget_dset_self]
    rfl
  unfold copyScenarioPost
  rw [hsrc]
  show setScen
    ({ s with scenarios := ddel (dset s.scenarios dst v) s.current }) dst = _
  rw [setScen_mem ({ s with scenarios := ddel (dset s.scenarios dst v) s.current })
    dst hd1']

/-! ## Invariant preservation helpers -/

theorem scenarioPost_inv (s : View) (name : String) :
    Inv (scenarioPost s name).1 := by
  unfold scenarioPost
  by_cases hm : (dget s.scenarios name).isNone = true
  · rw [if_pos hm]
    show Inv (setScen (addScen s name) name).1
    have hsome : (dget (addScen s name).scenarios name).isSome = true := by
      show (dget (dset s.scenarios name ⟨[], []⟩) name).isSome = true
      rw [dget_dset_self]
      rfl
    rw [setScen_mem _ _ hsome]
    exact Or.inr hsome
  · rw [if_neg hm]
    show Inv (setScen s name).1
    have hsome : (dget s.scenarios name).isSome = true := by
      cases hdg : dget s.scenarios name
      · rw [hdg] at hm
        exact absurd rfl hm
      · rfl
    rw [setScen_mem _ _ hsome]
    exact Or.inr hsome

theorem deleteScenarioPost_inv (s : View) (name : String) (hInv : Inv s)
    (hnd : (dkeys s.scenarios).Nodup) : Inv (deleteScenarioPost s name).1 := by
  cases hidx : idxOf (dkeys s.scenarios) name with
  | none =>
    have hcall : deleteScenarioPost s name = (s, some .valueError) := by
      unfold deleteScenarioPost
      rw [hidx]
    rw [hcall]
    exact hInv
  | some index =>
    obtain ⟨-, -, h3, h4⟩ := deleteScenarioPost_spec s name index hnd hidx
    by_cases hl1 : (dkeys s.scenarios).length = 1
    · exact Or.inl (h3 hl1).2
    · exact Or.inr (h4 hl1).2.2

theorem copyScenarioPost_inv (s : View) (dst : String) (hInv : Inv s)
    (hne : dst ≠ s.current) : Inv (copyScenarioPost s dst).1 := by
  cases hsrc : dget s.scenarios s.current with
  | none =>
    have hcall : copyScenarioPost s dst = (s, some .keyError) := by
      unfold copyScenarioPost
      rw [hsrc]
    rw [hcall]
    exact hInv
  | some v =>
    rw [copyScenarioPost_eq s dst v hsrc hne]
    exact Or.inr (by rw [dget_ddel_ne _ _ _ hne, dget_dset_self]; rfl)

theorem withRuleSet_inv (s : View) (fid : String)
    (op : RuleSet → Except VError RuleSet) (hInv : Inv s) :
    Inv (withRuleSet s fid op).1 := by
  unfold withRuleSet
  split
  · exact hInv
  · split
    · exact hInv
    · split
      · exact hInv
      · exact Or.inr (by rw [dget_dset_self]; rfl)

theorem dumpFlowsPostRest_inv (s2 : View)
    (header : Option (List (String × String))) (records : List Flow) :
    Inv (dumpFlowsPostRest s2 header records).state := by
  cases header with
  | none =>
    refine Or.inr ?_
    show (dget (dset s2.scenarios s2.current ⟨[], []⟩) s2.current).isSome = true
    rw [dget_dset_self]
    rfl
  | some ms =>
    refine Or.inr ?_
    show (dget (dset s2.scenarios s2.current ⟨[], []⟩) s2.current).isSome = true
    rw [dget_dset_self]
    rfl

theorem dumpFlowsPost_inv (s : View)
    (header : Option (List (String × String))) (records : List Flow)
    (hInv : Inv s) : Inv (dumpFlowsPost s header records).state := by
  obtain ⟨hscen, hcur, -, -, -⟩ := importS1_fields s
  unfold dumpFlowsPost
  set s1 := if !s.learning then switchLearning s else s with hs1
  unfold dumpFlowsPostClear
  by_cases hc : s1.current ≠ ""
  · rw [if_pos hc]
    cases hg : dget s1.scenarios s1.current with
    | none =>
      show Inv s1
      unfold Inv
      rw [hscen, hcur]
      exact hInv
    | some scen => exact dumpFlowsPostRest_inv _ _ _
  · rw [if_neg hc]
    exact dumpFlowsPostRest_inv _ _ _

/-! ## Claim theorems -/

/-- C9. Every capture import, as its first step — before reading any
byte of the uploaded file — forces the learning flag on (it flips the
flag only when it is off), so the system is always in learning mode
afterwards, on every path of the handler, error paths included. -/
theorem import_forces_learning (s : View)
    (header : Option (List (String × String))) (records : List Flow) :
    (dumpFlowsPost s header records).state.learning = true := by
  have h1 := (importS1_fields s).2.2.2.2
  unfold dumpFlowsPost
  set s1 := if !s.learning then switchLearning s else s with hs1
  unfold dumpFlowsPostClear
  split
  · split
    · exact h1
    · rw [dumpFlowsPostRest_learning]
      exact h1
  · rw [dumpFlowsPostRest_learning]
    exact h1

/-- C1. Importing a byte stream whose first line does not parse as the
matcher mapping fails with `InvalidCaptureFormatError` before any flow
ingestion begins: nothing is enqueued for ingestion, no matcher is
registered, and no flow is added to the live FlowStore (the store can
only have shrunk by the destructive clearing of the current
scenario). -/
theorem import_malformed_header_rejected (s : View) (records : List Flow)
    (hInv : Inv s) :
    (dumpFlowsPost s none records).err = some .invalidCaptureFormat ∧
    (dumpFlowsPost s none records).enqueued = [] ∧
    (dumpFlowsPost s none records).state.matchers = s.matchers ∧
    ∀ f ∈ (dumpFlowsPost s none records).state.store, f ∈ s.store := by
  obtain ⟨hscen, hcur, hstore, hmat, -⟩ := importS1_fields s
  have hInv1 : (if !s.learning then switchLearning s else s).current = "" ∨
      (dget (if !s.learning then switchLearning s else s).scenarios
        (if !s.learning then switchLearning s else s).current).isSome = true := by
    rw [hscen, hcur]
    exact hInv
  obtain ⟨e1, e2, e3, e4⟩ :=
    dumpFlowsPostClear_none (if !s.learning then switchLearning s else s) records hInv1
  refine ⟨e1, e2, e3.trans hmat, ?_⟩
  intro f hf
  exact hstore ▸ e4 f hf

/-- Witness for C1 at the sample view `v0`. -/
theorem import_malformed_header_rejected_witness :
    Inv v0 ∧
    ((dumpFlowsPost v0 none []).err = some .invalidCaptureFormat ∧
     (dumpFlowsPost v0 none []).enqueued = [] ∧
     (dumpFlowsPost v0 none []).state.matchers = v0.matchers ∧
     ∀ f ∈ (dumpFlowsPost v0 none []).state.store, f ∈ v0.store) :=
  ⟨by decide, import_malformed_header_rejected v0 [] (by decide)⟩

/-- C10. In the flow projection, a request or response whose raw body
is absent (`None`) or empty (`b""`) projects `contentLength = None`
and `contentHash = None` — Python truthiness makes the two cases
indistinguishable — and `flow_to_json` projects messages through
exactly these functions. -/
theorem empty_body_projects_none (r : Req) (p : Resp)
    (hr : r.raw_content = none ∨ r.raw_content = some [])
    (hp : p.raw_content = none ∨ p.raw_content = some []) :
    (reqToJson r).contentLength = none ∧ (reqToJson r).contentHash = none ∧
    (respToJson p).contentLength = none ∧ (respToJson p).contentHash = none ∧
    ∀ f : Flow, f.request = some r → f.response = some p →
      (flow_to_json f).request = some (reqToJson r) ∧
      (flow_to_json f).response = some (respToJson p) := by
  have hbr : bodyMeta r.raw_content = (none, none) := by
    rcases hr with h | h <;> simp [bodyMeta, pyTruthyBytes, h]
  have hbp : bodyMeta p.raw_content = (none, none) := by
    rcases hp with h | h <;> simp [bodyMeta, pyTruthyBytes, h]
  refine ⟨?_, ?_, ?_, ?_, ?_⟩
  · simp [reqToJson, hbr]
  · simp [reqToJson, hbr]
  · simp [respToJson, hbp]
  · simp [respToJson, hbp]
  · intro f hfr hfp
    simp [flow_to_json, hfr, hfp]

/-- Witness for C10 at the sample request (absent body) and response
(zero-length body). -/
theorem empty_body_projects_none_witness :
    (rq0.raw_content = none ∨ rq0.raw_content = some []) ∧
    (rp0.raw_content = none ∨ rp0.raw_content = some []) ∧
    (reqToJson rq0).contentLength = none ∧ (reqToJson rq0).contentHash = none ∧
    (respToJson rp0).contentLength = none ∧ (respToJson rp0).contentHash = none :=
  ⟨by decide, by decide,
   (empty_body_projects_none rq0 rp0 (by decide) (by decide)).1,
   (empty_body_projects_none rq0 rp0 (by decide) (by decide)).2.1,
   (empty_body_projects_none rq0 rp0 (by decide) (by decide)).2.2.1,
   (empty_body_projects_none rq0 rp0 (by decide) (by decide)).2.2.2.1⟩

/-- C8, counterexample. A flow-update request whose `port` value is
not parseable as an integer raises an uncaught `ValueError` *after*
the `method` field was already set: the failed request leaves a
partial mutation, so "any error leaves the flow unchanged" is false as
stated. -/
theorem flow_put_partial_mutation_cex :
    (flowPut fl0 updBad).2 = some .valueError ∧
    (flowPut fl0 updBad).1 ≠ fl0 ∧
    (flowPut fl0 updBad).1.request.map Req.method = some "POST" := by
  decide

/-- C8, amended. A flow-update request that raises an `APIError` — an
unknown section or field name — reverts the flow to its backup, so its
observable state after the error equals its state before; only
non-`APIError` exceptions (e.g. an invalid `port`/`code` value) escape
the revert. -/
theorem flow_put_apierror_reverts (f : Flow)
    (upds : List (String × List (String × JVal)))
    (h : (flowPut f upds).2 = some .apiError) :
    (flowPut f upds).1 = f := by
  unfold flowPut at h ⊢
  cases hl : flowPutLoop f upds with
  | mk f' e =>
    rw [hl] at h
    cases e with
    | none => simp at h
    | some e' =>
      by_cases he : e' = .apiError
      · show (if e' = VError.apiError then (f, some VError.apiError)
            else (f', some e')).1 = f
        rw [if_pos he]
      · have h' : (if e' = VError.apiError then (f, some VError.apiError)
            else (f', some e')).2 = some VError.apiError := h
        rw [if_neg he] at h'
        injection h' with h'
        exact absurd h' he

/-- Witness for C8 (amended) at the sample flow and an unknown-section
update. -/
theorem flow_put_apierror_reverts_witness :
    (flowPut fl0 updUnknown).2 = some .apiError ∧
    (flowPut fl0 updUnknown).1 = fl0 :=
  ⟨by decide, flow_put_apierror_reverts fl0 updUnknown (by decide)⟩

/-- C6. With the `RuleSet` engine modelled from the spec, the rule
handlers reject both boundary moves — the first rule further up
(`switchRules(label, 0, -1)`) and the last rule further down
(`switchRules(label, n-1, n)`) — with `IndexOutOfRangeError` and an
unchanged state, and more generally reject any out-of-range index
instead of clamping or wrapping it. -/
theorem switch_rules_boundary_rejected (s : View) (flow_id label : String)
    (sc : Scen) (rs : RuleSet) (n : Nat)
    (hsc : dget s.scenarios s.current = some sc)
    (hrs : dget sc.rules flow_id = some rs)
    (hn : (rs.labelRules label).length = n) :
    ruleUpPost s flow_id label 0 = (s, some .indexOutOfRange) ∧
    ruleDownPost s flow_id label (n - 1) = (s, some .indexOutOfRange) ∧
    ∀ i : Nat, n ≤ i →
      ruleUpPost s flow_id label i = (s, some .indexOutOfRange) ∧
      ruleDownPost s flow_id label i = (s, some .indexOutOfRange) := by
  have hswitch : ∀ (i j : Int), (i < 0 ∨ j < 0 ∨ n ≤ i ∨ n ≤ j) →
      rs.switchRules label i j = .error .indexOutOfRange := by
    intro i j hout
    unfold RuleSet.switchRules
    rw [if_neg]
    rw [hn]
    omega
  have hup : ∀ (i j : Int), (i < 0 ∨ j < 0 ∨ n ≤ i ∨ n ≤ j) →
      withRuleSet s flow_id (fun r => r.switchRules label i j) =
        (s, some .indexOutOfRange) := by
    intro i j hout
    simp only [withRuleSet, hsc, hrs]
    rw [hswitch i j hout]
  refine ⟨?_, ?_, ?_⟩
  · exact hup 0 (-1) (by omega)
  · refine hup ((n - 1 : Nat) : Int) (((n - 1 : Nat) : Int) + 1) ?_
    omega
  · intro i hi
    exact ⟨hup (i : Int) ((i : Int) - 1) (by omega),
           hup (i : Int) ((i : Int) + 1) (by omega)⟩

/-- Witness for C6 at the sample view (label `"Match"` has one rule). -/
theorem switch_rules_boundary_rejected_witness :
    dget v0.scenarios v0.current = some scen0 ∧
    dget scen0.rules "f1" = some rs0 ∧
    (rs0.labelRules "Match").length = 1 ∧
    ruleUpPost v0 "f1" "Match" 0 = (v0, some .indexOutOfRange) ∧
    ruleDownPost v0 "f1" "Match" 0 = (v0, some .indexOutOfRange) :=
  ⟨by decide, by decide, by decide,
   (switch_rules_boundary_rejected v0 "f1" "Match" scen0 rs0 1
      (by decide) (by decide) (by decide)).1,
   (switch_rules_boundary_rejected v0 "f1" "Match" scen0 rs0 1
      (by decide) (by decide) (by decide)).2.1⟩

/-- C7. When the full flow listing completes, `Flows.get` returns the
listing computed from the pre-request state and switches both the
`mock` and the `learning` flag off, whatever their values were. -/
theorem flows_get_clears_flags (s : View) (l : List ListingItem)
    (h : flowsListing s = .ok l) :
    flowsGet s = (.ok l, { s with mock := false, learning := false }) := by
  unfold flowsGet
  rw [h]
  obtain ⟨sc, cur, lrn, mk, st, mt⟩ := s
  cases lrn <;> cases mk <;> simp [switchMock, switchLearning]

/-- Witness for C7 at the sample view with both flags on. -/
theorem flows_get_clears_flags_witness :
    flowsListing vFlags = .ok lw ∧
    flowsGet vFlags = (.ok lw, { vFlags with mock := false, learning := false }) :=
  ⟨rfl, flows_get_clears_flags vFlags lw rfl⟩

/-- C2, counterexample. On a view whose current scenario has a
`RuleSet` bound to flow `"f1"` but *no* registered matcher, the spec's
header (one entry per matcher registered against the scenario's flows)
is the empty mapping, while the export writes one entry pairing the
flow id with the string form of its `RuleSet` — a different header
line.  The header therefore maps flow ids to RuleSets, not to
Matchers. -/
theorem export_header_not_matchers_cex :
    v0.matchers = [] ∧
    dumpHeaderSpec v0 = [] ∧
    dumpHeaderEntries v0 = [("f1", ruleSetStr rs0)] ∧
    dumpFlowsGet v0 = some (mkHeaderLine [("f1", ruleSetStr rs0)], [fl0]) ∧
    mkHeaderLine [("f1", ruleSetStr rs0)] ≠ mkHeaderLine [] := by
  decide

/-- C2, amended. The export writes a single header line that textually
maps each flow id bound in the scenario's RuleSet mapping to the
string form of that flow's `RuleSet` (the registered Matchers are not
consulted), followed by one FlowCodec record per flow of the
scenario's flow set, in the scenario's iteration order. -/
theorem export_writes_ruleset_header (s : View) (scen : Scen)
    (h : dget s.scenarios s.current = some scen) :
    dumpFlowsGet s = some (mkHeaderLine (dumpHeaderEntries s), scen.flows) ∧
    dumpHeaderEntries s = scen.rules.map (fun p => (p.1, ruleSetStr p.2)) := by
  have he : dumpHeaderEntries s = scen.rules.map (fun p => (p.1, ruleSetStr p.2)) := by
    unfold dumpHeaderEntries
    rw [h]
    rfl
  refine ⟨?_, he⟩
  unfold dumpFlowsGet
  rw [h]
  show some (scen.rules.foldl
      (fun a p => a ++ ("'" ++ p.1 ++ "'" ++ ": " ++ ruleSetStr p.2 ++ ", ")) "\x7b"
      ++ "\x7d \n", scen.flows) = _
  rw [he]
  unfold mkHeaderLine
  rw [strFoldAppend (fun p => "'" ++ p.1 ++ "'" ++ ": " ++ ruleSetStr p.2 ++ ", ")
    scen.rules "\x7b", List.map_map]
  rfl

/-- Witness for C2 (amended) at the sample view. -/
theorem export_writes_ruleset_header_witness :
    dget v0.scenarios v0.current = some scen0 ∧
    dumpFlowsGet v0 = some (mkHeaderLine (dumpHeaderEntries v0), scen0.flows) :=
  ⟨by decide, (export_writes_ruleset_header v0 scen0 (by decide)).1⟩

/-- C3, counterexample. When the destination name equals the (current)
source name, the handler first rebinds the name to its own value and
then deletes it: the scenario is lost.  On `v0`, `copyScenario` with
`src = dst = "A"` leaves `"A"` bound to nothing, so "dst maps to
exactly what src had" fails. -/
theorem copy_self_loses_scenario_cex :
    dget v0.scenarios v0.current = some scen0 ∧
    v0.current = "A" ∧
    dget (copyScenarioPost v0 "A").1.scenarios "A" = none ∧
    (copyScenarioPost v0 "A").1.scenarios = [] := by
  decide

/-- C3, amended. For a destination name different from the source (the
current scenario's name), the copy moves the source's value: the
source name no longer resolves, the destination maps to exactly the
flow set and RuleSet mapping the source had, and the destination
becomes current. -/
theorem copy_moves_scenario (s : View) (dst : String) (v : Scen)
    (hsrc : dget s.scenarios s.current = some v)
    (hne : dst ≠ s.current)
    (hnd : (dkeys s.scenarios).Nodup) :
    (copyScenarioPost s dst).2 = none ∧
    dget (copyScenarioPost s dst).1.scenarios s.current = none ∧
    dget (copyScenarioPost s dst).1.scenarios dst = some v ∧
    (copyScenarioPost s dst).1.current = dst := by
  have hd1 : dget (ddel (dset s.scenarios dst v) s.current) dst = some v := by
    rw [dget_ddel_ne _ _ _ hne, dget_dset_self]
  have hd2 : dget (ddel (dset s.scenarios dst v) s.current) s.current = none :=
    nodup_dget_ddel_self _ _ (dkeys_dset_nodup _ _ _ hnd)
  have hd1' : (dget (ddel (dset s.scenarios dst v) s.current) dst).isSome = true := by
    rw [hd1]
    rfl
  have hcall : copyScenarioPost s dst =
      ({ s with scenarios := ddel (dset s.scenarios dst v) s.current,
                current := dst }, none) := by
    unfold copyScenarioPost
    rw [hsrc]
    show setScen
      ({ s with scenarios := ddel (dset s.scenarios dst v) s.current }) dst = _
    rw [setScen_mem ({ s with scenarios := ddel (dset s.scenarios dst v) s.current })
      dst hd1']
  rw [hcall]
  exact ⟨rfl, hd2, hd1, rfl⟩

/-- Witness for C3 (amended): copying current scenario `"A"` of `v0`
to the fresh name `"B"`. -/
theorem copy_moves_scenario_witness :
    dget v0.scenarios v0.current = some scen0 ∧
    dget (copyScenarioPost v0 "B").1.scenarios "A" = none ∧
    dget (copyScenarioPost v0 "B").1.scenarios "B" = some scen0 ∧
    (copyScenarioPost v0 "B").1.current = "B" :=
  ⟨by decide,
   (copy_moves_scenario v0 "B" scen0 (by decide) (by decide) (by decide)).2.1,
   (copy_moves_scenario v0 "B" scen0 (by decide) (by decide) (by decide)).2.2.1,
   (copy_moves_scenario v0 "B" scen0 (by decide) (by decide) (by decide)).2.2.2⟩

/-- C4. Removing the current scenario succeeds and reselects a
neighbour: when it was the only scenario, `current` becomes empty and
no scenario remains; otherwise `current` becomes the removed
scenario's immediate predecessor in insertion order — or its immediate
successor when it was first — and in that case scenarios remain and
`current` names an existing one. -/
theorem remove_current_reselects_neighbor (s : View) (name : String) (index : Nat)
    (_hcur : s.current = name)
    (hnd : (dkeys s.scenarios).Nodup)
    (hidx : idxOf (dkeys s.scenarios) name = some index) :
    (deleteScenarioPost s name).2 = none ∧
    ((dkeys s.scenarios).length = 1 →
      (deleteScenarioPost s name).1.scenarios = [] ∧
      (deleteScenarioPost s name).1.current = "") ∧
    (1 < (dkeys s.scenarios).length →
      (0 < index →
        (deleteScenarioPost s name).1.current =
          (dkeys s.scenarios).getD (index - 1) "") ∧
      (index = 0 →
        (deleteScenarioPost s name).1.current = (dkeys s.scenarios).getD 1 "") ∧
      (deleteScenarioPost s name).1.scenarios ≠ [] ∧
      (dget (deleteScenarioPost s name).1.scenarios
        (deleteScenarioPost s name).1.current).isSome = true) := by
  obtain ⟨h1, h2, h3, h4⟩ := deleteScenarioPost_spec s name index hnd hidx
  refine ⟨h1, h3, fun hlen => ?_⟩
  obtain ⟨h5, h6, h7⟩ := h4 (by omega)
  refine ⟨fun hpos => h5 (by omega), fun h0 => ?_, ?_, h7⟩
  · rw [h6 h0, h0]
  · intro hempty
    rw [hempty] at h7
    simp [dget] at h7

/-- Witness for C4: deleting current scenario `"B"` of the three
scenarios `A, B, C` makes the predecessor `"A"` current. -/
theorem remove_current_reselects_neighbor_witness :
    v3.current = "B" ∧ (dkeys v3.scenarios).Nodup ∧
    idxOf (dkeys v3.scenarios) "B" = some 1 ∧
    (deleteScenarioPost v3 "B").1.current = (dkeys v3.scenarios).getD 0 "" :=
  ⟨by decide, by decide, by decide,
   ((remove_current_reselects_neighbor v3 "B" 1 (by decide) (by decide)
      (by decide)).2.2 (by decide)).1 (by decide)⟩

/-- C5, counterexample. The invariant "`current` is empty or a key of
the scenario mapping" is *not* preserved by every operation: on `v0`
(where it holds) a copy whose destination equals the current name
deletes the only binding but leaves `current = "A"` dangling. -/
theorem invariant_broken_by_self_copy_cex :
    Inv v0 ∧ ¬ Inv (copyScenarioPost v0 "A").1 := by
  decide

/-- C5, amended. Starting from any state satisfying the invariant
(with well-formed dict keys), the invariant is preserved by scenario
create/activate, scenario removal, every rule operation, capture
import, and by scenario copy whenever the destination name differs
from the current (source) name — the self-copy case being the sole
violation. -/
theorem invariant_preserved_amended (s : View) (hInv : Inv s)
    (hnd : (dkeys s.scenarios).Nodup) :
    (∀ name, Inv (scenarioPost s name).1) ∧
    (∀ name, Inv (deleteScenarioPost s name).1) ∧
    (∀ dst, dst ≠ s.current → Inv (copyScenarioPost s dst).1) ∧
    (∀ fid label fields i, Inv (rulePutPost s fid label fields i).1) ∧
    (∀ fid label i, Inv (ruleUpPost s fid label i).1) ∧
    (∀ fid label i, Inv (ruleDownPost s fid label i).1) ∧
    (∀ fid label i, Inv (ruleDeletePost s fid label i).1) ∧
    (∀ header records, Inv (dumpFlowsPost s header records).state) := by
  refine ⟨fun name => scenarioPost_inv s name,
    fun name => deleteScenarioPost_inv s name hInv hnd,
    fun dst hne => copyScenarioPost_inv s dst hInv hne,
    fun fid label fields i => withRuleSet_inv s fid _ hInv,
    fun fid label i => withRuleSet_inv s fid _ hInv,
    fun fid label i => withRuleSet_inv s fid _ hInv,
    fun fid label i => withRuleSet_inv s fid _ hInv,
    fun header records => dumpFlowsPost_inv s header records hInv⟩

/-- Witness for C5 (amended) at the sample view `v0`. -/
theorem invariant_preserved_amended_witness :
    Inv v0 ∧ (dkeys v0.scenarios).Nodup ∧
    Inv (scenarioPost v0 "B").1 ∧ Inv (deleteScenarioPost v0 "A").1 ∧
    Inv (copyScenarioPost v0 "B").1 ∧ Inv (dumpFlowsPost v0 none []).state :=
  ⟨by decide, by decide,
   (invariant_preserved_amended v0 (by decide) (by decide)).1 "B",
   (invariant_preserved_amended v0 (by decide) (by decide)).2.1 "A",
   (invariant_preserved_amended v0 (by decide) (by decide)).2.2.1 "B" (by decide),
   (invariant_preserved_amended v0 (by decide) (by decide)).2.2.2.2.2.2.2 none []⟩

end MitmWeb
